import Mathlib

/-!
Verification of the client-side component-hydration layer of the
nayan front-end template (src/js/helpers/util.js, src/js/helpers/dom.js,
src/js/common/App.js, src/js/common/Module.js).

The JavaScript source is shallowly embedded: JS runtime values are the
inductive type JSVal, JS numbers are JSNumber (rationals plus NaN and the
infinities; no floating-point rounding is exercised by any theorem below),
promises and exceptions are modelled with Except, and the stateful
script/stylesheet loaders are modelled by explicit state passing.
-/

namespace Nayan

/-- JS numbers as used by parseFloat / JSON.parse: NaN, signed infinity, or a
finite value (modelled as an exact rational; none of the inputs exercised by
the theorems below hit double-precision rounding). -/
inductive JSNumber where
  | nan : JSNumber
  | inf (neg : Bool) : JSNumber
  | fin (q : ℚ) : JSNumber
  deriving DecidableEq, Repr

/-- JS runtime values that can flow through the dataset / coercion layer.
vDate carries the epoch-millisecond time value of a valid Date object. -/
inductive JSVal where
  | vUndef : JSVal
  | vNull : JSVal
  | vBool (b : Bool) : JSVal
  | vNum (n : JSNumber) : JSVal
  | vStr (s : String) : JSVal
  | vDate (ms : Int) : JSVal
  | vArr (elems : List JSVal) : JSVal
  | vObj (fields : List (String × JSVal)) : JSVal

def isDigitCh (c : Char) : Bool := '0' ≤ c ∧ c ≤ '9'

def digitsToNat (cs : List Char) : Nat :=
  cs.foldl (fun a c => a * 10 + (c.toNat - 48)) 0

/-- Value of an optionally signed exponent part (the digits after e/E). -/
def expValue (neg : Bool) (ds : List Char) : Int :=
  if neg then -(digitsToNat ds : Int) else (digitsToNat ds : Int)

/-- Longest valid decimal-literal value at the head of the char list, per the
grammar parseFloat uses: digits, optional fraction, optional exponent (the
exponent only counts when at least one digit follows it). Returns none when
no digit occurs before or after the leading dot. -/
def parseDecimal (cs : List Char) : Option ℚ :=
  let ip := cs.takeWhile isDigitCh
  let rest1 := cs.drop ip.length
  let (fp, rest2) : List Char × List Char :=
    match rest1 with
    | '.' :: r => (r.takeWhile isDigitCh, r.drop (r.takeWhile isDigitCh).length)
    | r => ([], r)
  if ip.isEmpty ∧ fp.isEmpty then none
  else
    let mant : ℚ := (digitsToNat ip : ℚ) + (digitsToNat fp : ℚ) / ((10 : ℚ) ^ fp.length)
    let e : Int :=
      match rest2 with
      | 'e' :: '+' :: ds | 'E' :: '+' :: ds =>
        let es := ds.takeWhile isDigitCh
        if es.isEmpty then 0 else expValue false es
      | 'e' :: '-' :: ds | 'E' :: '-' :: ds =>
        let es := ds.takeWhile isDigitCh
        if es.isEmpty then 0 else expValue true es
      | 'e' :: ds | 'E' :: ds =>
        let es := ds.takeWhile isDigitCh
        if es.isEmpty then 0 else expValue false es
      | _ => 0
    some (mant * (10 : ℚ) ^ e)

/-- JS parseFloat: skip leading whitespace, optional sign, then the longest
prefix that is a decimal literal or Infinity; NaN when there is none. -/
def parseFloat (s : String) : JSNumber :=
  let cs := s.data.dropWhile (fun c => c.isWhitespace)
  let (neg, cs2) : Bool × List Char :=
    match cs with
    | '-' :: r => (true, r)
    | '+' :: r => (false, r)
    | r => (false, r)
  if cs2.take 8 = "Infinity".data then JSNumber.inf neg
  else
    match parseDecimal cs2 with
    | some q => JSNumber.fin (if neg then -q else q)
    | none => JSNumber.nan

/-! JSON.parse, modelled as a total recursive-descent parser returning
Option JSVal (none models a thrown SyntaxError). -/

def jsonWS (cs : List Char) : List Char :=
  cs.dropWhile (fun c => c = ' ' ∨ c = '\t' ∨ c = '\n' ∨ c = '\r')

def hexVal (c : Char) : Option Nat :=
  if isDigitCh c then some (c.toNat - 48)
  else if 'a' ≤ c ∧ c ≤ 'f' then some (c.toNat - 87)
  else if 'A' ≤ c ∧ c ≤ 'F' then some (c.toNat - 55)
  else none

/-- Body of a JSON string after the opening quote: content and remainder. -/
def parseJStringBody : List Char → Option (List Char × List Char)
  | [] => none
  | '"' :: rest => some ([], rest)
  | '\\' :: esc :: rest =>
    match esc, rest with
    | 'u', h1 :: h2 :: h3 :: h4 :: rest2 =>
      match hexVal h1, hexVal h2, hexVal h3, hexVal h4 with
      | some a, some b, some c, some d =>
        (parseJStringBody rest2).map
          (fun p => (Char.ofNat (((a * 16 + b) * 16 + c) * 16 + d) :: p.1, p.2))
      | _, _, _, _ => none
    | 'u', _ => none
    | '"', r => (parseJStringBody r).map (fun p => ('"' :: p.1, p.2))
    | '\\', r => (parseJStringBody r).map (fun p => ('\\' :: p.1, p.2))
    | '/', r => (parseJStringBody r).map (fun p => ('/' :: p.1, p.2))
    | 'b', r => (parseJStringBody r).map (fun p => (Char.ofNat 8 :: p.1, p.2))
    | 'f', r => (parseJStringBody r).map (fun p => (Char.ofNat 12 :: p.1, p.2))
    | 'n', r => (parseJStringBody r).map (fun p => ('\n' :: p.1, p.2))
    | 'r', r => (parseJStringBody r).map (fun p => ('\r' :: p.1, p.2))
    | 't', r => (parseJStringBody r).map (fun p => ('\t' :: p.1, p.2))
    | _, _ => none
  | c :: rest =>
    if c.toNat < 32 then none
    else (parseJStringBody rest).map (fun p => (c :: p.1, p.2))

/-- JSON number: -? (0 | nonzero digits) (. digits)? ([eE] sign? digits)?. -/
def parseJNumber (cs : List Char) : Option (ℚ × List Char) :=
  let (neg, cs1) : Bool × List Char :=
    match cs with
    | '-' :: r => (true, r)
    | r => (false, r)
  let ip := cs1.takeWhile isDigitCh
  if ip.isEmpty then none
  else if ip.length > 1 ∧ ip.head? = some '0' then none
  else
    let rest1 := cs1.drop ip.length
    let (fp, rest2, fracOk) : List Char × List Char × Bool :=
      match rest1 with
      | '.' :: r =>
        let f := r.takeWhile isDigitCh
        (f, r.drop f.length, !f.isEmpty)
      | r => ([], r, true)
    if !fracOk then none
    else
      let (e, rest3, expOk) : Int × List Char × Bool :=
        match rest2 with
        | 'e' :: '+' :: ds | 'E' :: '+' :: ds =>
          let es := ds.takeWhile isDigitCh
          (expValue false es, ds.drop es.length, !es.isEmpty)
        | 'e' :: '-' :: ds | 'E' :: '-' :: ds =>
          let es := ds.takeWhile isDigitCh
          (expValue true es, ds.drop es.length, !es.isEmpty)
        | 'e' :: ds | 'E' :: ds =>
          let es := ds.takeWhile isDigitCh
          (expValue false es, ds.drop es.length, !es.isEmpty)
        | r => (0, r, true)
      if !expOk then none
      else
        let mant : ℚ := (digitsToNat ip : ℚ) + (digitsToNat fp : ℚ) / ((10 : ℚ) ^ fp.length)
        let v := mant * (10 : ℚ) ^ e
        some ((if neg then -v else v), rest3)

mutual

/-- One JSON value at the head of the input (fuel-indexed; the fuel used at
the top level always suffices because every recursive step consumes input). -/
def parseJValue : Nat → List Char → Option (JSVal × List Char)
  | 0, _ => none
  | fuel + 1, cs =>
    match jsonWS cs with
    | 'n' :: 'u' :: 'l' :: 'l' :: rest => some (JSVal.vNull, rest)
    | 't' :: 'r' :: 'u' :: 'e' :: rest => some (JSVal.vBool true, rest)
    | 'f' :: 'a' :: 'l' :: 's' :: 'e' :: rest => some (JSVal.vBool false, rest)
    | '"' :: rest =>
      (parseJStringBody rest).map (fun p => (JSVal.vStr (String.mk p.1), p.2))
    | '[' :: rest => parseJArray fuel rest
    | '{' :: rest => parseJObject fuel rest
    | rest => (parseJNumber rest).map (fun p => (JSVal.vNum (JSNumber.fin p.1), p.2))

/-- Elements of a JSON array after the opening bracket. -/
def parseJArray : Nat → List Char → Option (JSVal × List Char)
  | 0, _ => none
  | fuel + 1, cs =>
    match jsonWS cs with
    | ']' :: rest => some (JSVal.vArr [], rest)
    | cs1 =>
      match parseJValue fuel cs1 with
      | none => none
      | some (v, rest) => parseJArrayTail fuel v [] rest

/-- Remaining elements of a JSON array after a first parsed element. -/
def parseJArrayTail : Nat → JSVal → List JSVal → List Char → Option (JSVal × List Char)
  | 0, _, _, _ => none
  | fuel + 1, v, acc, cs =>
    match jsonWS cs with
    | ']' :: rest => some (JSVal.vArr ((v :: acc).reverse), rest)
    | ',' :: rest =>
      match parseJValue fuel rest with
      | none => none
      | some (v2, rest2) => parseJArrayTail fuel v2 (v :: acc) rest2
    | _ => none

/-- Members of a JSON object after the opening brace. -/
def parseJObject : Nat → List Char → Option (JSVal × List Char)
  | 0, _ => none
  | fuel + 1, cs =>
    match jsonWS cs with
    | '}' :: rest => some (JSVal.vObj [], rest)
    | cs1 =>
      match parseJMember fuel cs1 with
      | none => none
      | some (kv, rest) => parseJObjectTail fuel kv [] rest

/-- One string-key : value member of a JSON object. -/
def parseJMember : Nat → List Char → Option ((String × JSVal) × List Char)
  | 0, _ => none
  | fuel + 1, cs =>
    match jsonWS cs with
    | '"' :: rest =>
      match parseJStringBody rest with
      | none => none
      | some (k, rest2) =>
        match jsonWS rest2 with
        | ':' :: rest3 =>
          (parseJValue fuel rest3).map (fun p => ((String.mk k, p.1), p.2))
        | _ => none
    | _ => none

/-- Remaining members of a JSON object after a first parsed member. -/
def parseJObjectTail : Nat → (String × JSVal) → List (String × JSVal) → List Char →
    Option (JSVal × List Char)
  | 0, _, _, _ => none
  | fuel + 1, kv, acc, cs =>
    match jsonWS cs with
    | '}' :: rest => some (JSVal.vObj ((kv :: acc).reverse), rest)
    | ',' :: rest =>
      match parseJMember fuel rest with
      | none => none
      | some (kv2, rest2) => parseJObjectTail fuel kv2 (kv :: acc) rest2
    | _ => none

end

/-- JSON.parse(s): the parsed value, or none when JSON.parse would throw
(trailing non-whitespace also throws). -/
def jsonParse (s : String) : Option JSVal :=
  match parseJValue (2 * s.length + 2) s.data with
  | some (v, rest) => if jsonWS rest = [] then some v else none
  | none => none

/-! parseISODate (util.js): the regex
^(-?(?:[1-9][0-9]*)?[0-9]{4})-?(1[0-2]|0[1-9])-?(3[01]|0[1-9]|[12][0-9])
(T(2[0-3]|[01][0-9]):([0-5][0-9])(:([0-5][0-9]))?(\.[0-9]{3})?
(Z|((\+|-)[0-9]{2}:[0-9]{2}))?)?$
is embedded as a parser; the backtracking over how many leading digits the
year group swallows (its [1-9][0-9]* part is greedy, longest first) is the
only non-deterministic choice point and is replayed explicitly by
yearSplitCandidates/findSome?. The new Date(...) construction on the
canonical recomposed string is embedded by toEpoch, which (per the
ECMAScript date-time string format) accepts only unsigned 4-digit years,
in-range timezone offsets, and real calendar days, yielding the epoch
milliseconds; everything else is an Invalid Date, which isValidDate
rejects, so parseISODate returns null. -/

/-- Timezone suffix accepted by the regex: absent (defaults to Z), Z, or a
signed HH:MM offset whose digits the regex does not range-check. -/
inductive TZSpec where
  | absent : TZSpec
  | zulu : TZSpec
  | offset (negOff : Bool) (offH : Nat) (offM : Nat) : TZSpec
  deriving DecidableEq, Repr

/-- The regex captures after the year group. -/
structure ISOParts where
  month : Nat
  day : Nat
  hour : Nat
  minute : Nat
  second : Nat
  millis : Nat
  tz : TZSpec
  deriving DecidableEq, Repr

def ds2 (c1 c2 : Char) : Nat := (c1.toNat - 48) * 10 + (c2.toNat - 48)

def monthValid (c1 c2 : Char) : Bool :=
  (c1 = '1' ∧ ('0' ≤ c2 ∧ c2 ≤ '2')) ∨ (c1 = '0' ∧ ('1' ≤ c2 ∧ c2 ≤ '9'))

def dayValid (c1 c2 : Char) : Bool :=
  (c1 = '3' ∧ (c2 = '0' ∨ c2 = '1')) ∨ (c1 = '0' ∧ ('1' ≤ c2 ∧ c2 ≤ '9')) ∨
    ((c1 = '1' ∨ c1 = '2') ∧ isDigitCh c2)

def hourValid (c1 c2 : Char) : Bool :=
  (c1 = '2' ∧ ('0' ≤ c2 ∧ c2 ≤ '3')) ∨ ((c1 = '0' ∨ c1 = '1') ∧ isDigitCh c2)

def minSecValid (c1 c2 : Char) : Bool :=
  ('0' ≤ c1 ∧ c1 ≤ '5') ∧ isDigitCh c2

/-- Trailing timezone group and end-of-string anchor. -/
def parseTZend (cs : List Char) (ms : Nat) : Option (Nat × TZSpec) :=
  match cs with
  | [] => some (ms, TZSpec.absent)
  | ['Z'] => some (ms, TZSpec.zulu)
  | '+' :: a :: b :: ':' :: c :: d :: [] =>
    if isDigitCh a ∧ isDigitCh b ∧ isDigitCh c ∧ isDigitCh d then
      some (ms, TZSpec.offset false (ds2 a b) (ds2 c d))
    else none
  | '-' :: a :: b :: ':' :: c :: d :: [] =>
    if isDigitCh a ∧ isDigitCh b ∧ isDigitCh c ∧ isDigitCh d then
      some (ms, TZSpec.offset true (ds2 a b) (ds2 c d))
    else none
  | _ => none

/-- Optional (\.[0-9]{3}) fractional-seconds group, then the timezone. -/
def parseFracTZ (cs : List Char) : Option (Nat × TZSpec) :=
  match cs with
  | '.' :: a :: b :: c :: r =>
    if isDigitCh a ∧ isDigitCh b ∧ isDigitCh c then
      parseTZend r ((ds2 a b) * 10 + (c.toNat - 48))
    else none
  | '.' :: _ => none
  | r => parseTZend r 0

/-- The time-of-day part after the T: hour, required colon, minutes,
optional seconds, fraction and timezone. -/
def parseTime (cs : List Char) : Option (Nat × Nat × Nat × Nat × TZSpec) :=
  match cs with
  | h1 :: h2 :: ':' :: m1 :: m2 :: rest =>
    if hourValid h1 h2 ∧ minSecValid m1 m2 then
      match rest with
      | ':' :: s1 :: s2 :: rest2 =>
        if minSecValid s1 s2 then
          (parseFracTZ rest2).map (fun p => (ds2 h1 h2, ds2 m1 m2, ds2 s1 s2, p.1, p.2))
        else none
      | ':' :: _ => none
      | rest2 =>
        (parseFracTZ rest2).map (fun p => (ds2 h1 h2, ds2 m1 m2, 0, p.1, p.2))
    else none
  | _ => none

/-- Month, day and optional time after the year group (separators optional,
as in the regex). Deterministic: every alternative in the remaining regex
consumes a fixed shape, so no further backtracking can change the result. -/
def parseAfterYear (cs : List Char) : Option ISOParts :=
  let cs1 := match cs with
    | '-' :: r => r
    | r => r
  match cs1 with
  | m1 :: m2 :: rest =>
    if monthValid m1 m2 then
      let cs2 := match rest with
        | '-' :: r => r
        | r => r
      match cs2 with
      | d1 :: d2 :: rest2 =>
        if dayValid d1 d2 then
          match rest2 with
          | [] => some ⟨ds2 m1 m2, ds2 d1 d2, 0, 0, 0, 0, TZSpec.absent⟩
          | 'T' :: tcs =>
            (parseTime tcs).map (fun p =>
              ⟨ds2 m1 m2, ds2 d1 d2, p.1, p.2.1, p.2.2.1, p.2.2.2.1, p.2.2.2.2⟩)
          | _ => none
        else none
      | _ => none
    else none
  | _ => none

/-- Digit counts the greedy year group tries, longest first. When the run
starts with 0 the [1-9][0-9]* prefix must be empty, so only 4 digits. -/
def yearSplitCandidates (run : List Char) : List Nat :=
  if run.length < 4 then []
  else if run.head? = some '0' then [4]
  else ((List.range (run.length - 4 + 1)).reverse).map (· + 4)

def isLeap (y : Nat) : Bool := (y % 4 = 0 ∧ y % 100 ≠ 0) ∨ y % 400 = 0

def daysInMonth (y m : Nat) : Nat :=
  if m = 2 then (if isLeap y then 29 else 28)
  else if m = 4 ∨ m = 6 ∨ m = 9 ∨ m = 11 then 30
  else 31

/-- Days from 1970-01-01 to year/month/day (proleptic Gregorian),
the civil-from-days algorithm used by ECMAScript MakeDay. -/
def daysFromCivil (y : Int) (m d : Nat) : Int :=
  let y2 : Int := if m ≤ 2 then y - 1 else y
  let era : Int := (if 0 ≤ y2 then y2 else y2 - 399) / 400
  let yoe : Int := y2 - era * 400
  let doy : Int := (153 * ((m : Int) + (if 2 < m then -3 else 9)) + 2) / 5 + (d : Int) - 1
  let doe : Int := yoe * 365 + yoe / 4 - yoe / 100 + doy
  era * 146097 + doe - 719468

/-- new Date on the canonical string `year-month-dayThh:mm:ss.mmmTZ` that
parseISODate recomposes, followed by the isValidDate check: valid only for
an unsigned 4-digit year, a real calendar day, and an in-range timezone
offset; yields the epoch milliseconds. -/
def toEpoch (negYear : Bool) (yearDs : List Char) (p : ISOParts) : Option Int :=
  if negYear ∨ yearDs.length ≠ 4 then none
  else
    let y := digitsToNat yearDs
    if daysInMonth y p.month < p.day then none
    else
      let offMin : Option Int :=
        match p.tz with
        | TZSpec.absent => some 0
        | TZSpec.zulu => some 0
        | TZSpec.offset n a b =>
          if a ≤ 23 ∧ b ≤ 59 then
            some ((if n then -1 else 1) * ((a : Int) * 60 + (b : Int)))
          else none
      match offMin with
      | none => none
      | some off =>
        some ((((daysFromCivil (y : Int) p.month p.day * 24 + (p.hour : Int)) * 60
            + (p.minute : Int)) - off) * 60000 + (p.second : Int) * 1000 + (p.millis : Int))

/-- parseISODate (util.js): regex match (first split the backtracking regex
finds), recomposition, new Date, isValidDate; null (none) on any failure. -/
def parseISODate (s : String) : Option Int :=
  match s.data with
  | [] => none
  | cs =>
    let (neg, cs1) : Bool × List Char :=
      match cs with
      | '-' :: r => (true, r)
      | r => (false, r)
    let run := cs1.takeWhile isDigitCh
    let rest0 := cs1.drop run.length
    match (yearSplitCandidates run).findSome? (fun yl =>
        (parseAfterYear (run.drop yl ++ rest0)).map (fun p => (run.take yl, p))) with
    | some (yearDs, p) => toEpoch neg yearDs p
    | none => none

/-! convertString (util.js): the Type Coercion Engine. The requested types
are the constructor values the switch dispatches on (Number, Date, Boolean,
Array, Object); String and any other constructor fall to the default case.
The second argument is Option (List TypeTag): none models any non-array
argument (undefined etc.), some models an array. -/

/-- Candidate constructor tags; tOther is any constructor not named in the
switch (custom classes), which like String falls to the default case. -/
inductive TypeTag where
  | tNumber : TypeTag
  | tDate : TypeTag
  | tBoolean : TypeTag
  | tArray : TypeTag
  | tObject : TypeTag
  | tString : TypeTag
  | tOther (id : Nat) : TypeTag
  deriving DecidableEq, Repr

/-- JS value instanceof constructor. Primitives (numbers, strings, booleans,
null, undefined) are instances of nothing; Date objects are instances of
Date and Object; arrays of Array and Object; plain objects of Object. -/
def instanceOf : JSVal → TypeTag → Bool
  | JSVal.vDate _, TypeTag.tDate => true
  | JSVal.vDate _, TypeTag.tObject => true
  | JSVal.vArr _, TypeTag.tArray => true
  | JSVal.vArr _, TypeTag.tObject => true
  | JSVal.vObj _, TypeTag.tObject => true
  | _, _ => false

/-- One switch dispatch of convertString: the value assigned to output by
the candidate type (on a JSON.parse throw, output keeps its previous
value). -/
def convertStep (s : String) (output : JSVal) : TypeTag → JSVal
  | TypeTag.tNumber => JSVal.vNum (parseFloat s)
  | TypeTag.tDate =>
    match parseISODate s with
    | some ms => JSVal.vDate ms
    | none => JSVal.vNull
  | TypeTag.tBoolean | TypeTag.tArray | TypeTag.tObject =>
    match jsonParse s with
    | some v => v
    | none => output
  | _ => JSVal.vStr s

/-- The for loop of convertString: breaks on the first candidate whose
output satisfies instanceof, else returns the last assigned output. -/
def convertLoop (s : String) (output : JSVal) : List TypeTag → JSVal
  | [] => output
  | t :: rest =>
    let output2 := convertStep s output t
    if instanceOf output2 t then output2 else convertLoop s output2 rest

/-- convertString (util.js): null unless the input is a string and the
requested types a non-empty array; otherwise the candidate loop starting
from output = undefined. -/
def convertString (str : JSVal) (requestedTypes : Option (List TypeTag)) : JSVal :=
  match str, requestedTypes with
  | JSVal.vStr s, some (t :: ts) => convertLoop s JSVal.vUndef (t :: ts)
  | _, _ => JSVal.vNull

/-! getDataset and parseVueProps (dom.js). A DOM dataset / plain object is
a finite ordered key-value mapping, embedded as an association list in
insertion order; sequential object assignment output[key] = val is
insertEntry (overwrite in place, else append), and Object.fromEntries is
fromEntries. The source tests each key with new RegExp applied to the
caller-supplied prefix string — the prefix is a regex PATTERN, not a
literal — and strips the matched portion with key.replace(regex, ''). The
pattern language is embedded for single-character-matching patterns:
literal characters and the '.' wildcard. Prefixes using any other regex
metacharacter are outside the modelled subset (this includes invalid
patterns such as "(", where new RegExp throws a SyntaxError out of
getDataset), which the embedded getDataset signals with none. -/

def insertEntry {β : Type} : List (String × β) → String → β → List (String × β)
  | [], k, v => [(k, v)]
  | (k0, v0) :: rest, k, v =>
    if k0 = k then (k0, v) :: rest else (k0, v0) :: insertEntry rest k v

def fromEntries {β : Type} (l : List (String × β)) : List (String × β) :=
  l.foldl (fun acc kv => insertEntry acc kv.1 kv.2) []

/-- key.charAt(0).toLowerCase() + key.substring(1). -/
def lowerFirst (s : String) : String :=
  match s.data with
  | [] => ""
  | c :: cs => String.mk (c.toLower :: cs)

/-- Literal starts-with on the underlying characters (kernel-reducible). -/
def startsWithLit (pfx s : String) : Bool :=
  pfx.data.isPrefixOf s.data

/-- JSON.parse(value) with silent fallback to the raw string. -/
def datasetVal (v : String) : JSVal :=
  match jsonParse v with
  | some j => j
  | none => JSVal.vStr v

/-- One token of the regex pattern new RegExp builds from the prefix:
a literal character or the '.' wildcard (matches any character). -/
inductive RegexTok where
  | lit (c : Char) : RegexTok
  | anyChar : RegexTok
  deriving DecidableEq, Repr

/-- Characters with special meaning in a JS regex pattern. -/
def regexMeta : List Char :=
  ['.', '*', '+', '?', '(', ')', '[', ']', '{', '}', '^', '$', '|', '\\']

/-- Compile the prefix string into the regex tokens of ^prefix: '.' is the
wildcard, metacharacter-free characters are literals. Any other
metacharacter puts the pattern outside the modelled subset (for some of
them, such as an unbalanced "(", new RegExp throws a SyntaxError; for the
rest the full regex semantics is not modelled): none. -/
def compilePattern : List Char → Option (List RegexTok)
  | [] => some []
  | c :: cs =>
    if c = '.' then (compilePattern cs).map (fun ts => RegexTok.anyChar :: ts)
    else if c ∈ regexMeta then none
    else (compilePattern cs).map (fun ts => RegexTok.lit c :: ts)

/-- regex.test for the ^-anchored token list, fused with
key.replace(regex, ''): some remainder (the key with the matched portion
removed) when the pattern matches at the start, none otherwise. -/
def matchHead : List RegexTok → List Char → Option (List Char)
  | [], cs => some cs
  | _ :: _, [] => none
  | RegexTok.lit c :: toks, x :: cs => if x = c then matchHead toks cs else none
  | RegexTok.anyChar :: toks, _ :: cs => matchHead toks cs

/-- The per-key body of getDataset's loop under a truthy prefix: test the
key against ^pattern; on a match strip the matched portion, lower-case the
first remaining character, drop the key if it became empty, and JSON-decode
the value with raw fallback. -/
def regexKeyEntry (toks : List RegexTok) (kv : String × String) : Option (String × JSVal) :=
  match matchHead toks kv.1.data with
  | none => none
  | some restKey =>
    let k2 := lowerFirst (String.mk restKey)
    if k2 ≠ "" then some (k2, datasetVal kv.2) else none

/-- getDataset's loop under a truthy prefix whose pattern compiled. -/
def getDatasetWithRegex (toks : List RegexTok) (ds : List (String × String)) :
    List (String × JSVal) :=
  fromEntries (ds.filterMap (regexKeyEntry toks))

/-- getDataset's loop with no (or an empty, falsy) prefix: every entry with
a non-empty key is kept unchanged, values JSON-decoded with raw fallback. -/
def getDatasetNoFilter (ds : List (String × String)) : List (String × JSVal) :=
  fromEntries (ds.filterMap (fun kv =>
    if kv.1 ≠ "" then some (kv.1, datasetVal kv.2) else none))

/-- getDataset (dom.js) on a plain mapping: with a truthy prefix, build
new RegExp from it and filter/strip each key through it (none when the
prefix's pattern lies outside the modelled regex subset — e.g. when
new RegExp would throw a SyntaxError); with a falsy prefix keep all
non-empty keys; assign into the output object in order. -/
def getDataset (ds : List (String × String)) (pfx : Option String) :
    Option (List (String × JSVal)) :=
  match pfx with
  | some p =>
    if p ≠ "" then (compilePattern p.data).map (fun toks => getDatasetWithRegex toks ds)
    else some (getDatasetNoFilter ds)
  | none => some (getDatasetNoFilter ds)

/-- The Dataset Extractor as the spec words it (section 4.1): exactly the
entries whose key starts with the prefix, prefix stripped, first remaining
character lower-cased, empty keys dropped, values JSON-decoded with raw
fallback. Stated for comparison with getDataset. -/
def getDatasetSpec (ds : List (String × String)) (p : String) : List (String × JSVal) :=
  ds.filterMap (fun kv =>
    if startsWithLit p kv.1 then
      let k2 := lowerFirst (String.mk (kv.1.data.drop p.data.length))
      if k2 ≠ "" then some (k2, datasetVal kv.2) else none
    else none)

/-- A declared parameter type in a component's props object: a single
constructor, an array of constructors, a {type: ...} object, or anything
else (which normalizes to no requested types). -/
inductive PropDef where
  | single (t : TypeTag) : PropDef
  | tagList (ts : List TypeTag) : PropDef
  | typed (t : TypeTag) : PropDef
  | other : PropDef
  deriving DecidableEq, Repr

/-- The requestedTypes normalization inside parseVueProps: a function
declaration becomes a singleton array, an array whose first element is a
function is kept, a {type: ...} object becomes a singleton array, anything
else leaves requestedTypes undefined. -/
def normPropTypes : PropDef → Option (List TypeTag)
  | PropDef.single t => some [t]
  | PropDef.tagList [] => none
  | PropDef.tagList (t :: ts) => some (t :: ts)
  | PropDef.typed t => some [t]
  | PropDef.other => none

/-- The body of the map in parseVueProps for one declared prop: null for a
missing or falsy raw value (these nulls are what filter(Boolean) removes;
the [key, prop] pairs themselves are always truthy and all kept), else the
pair of the key and the coerced value. -/
def parseVuePropEntry (props : List (String × String)) (kd : String × PropDef) :
    Option (String × JSVal) :=
  match List.lookup kd.1 props with
  | none => none
  | some raw =>
    if raw = "" then none
    else some (kd.1, convertString (JSVal.vStr raw) (normPropTypes kd.2))

/-- parseVueProps (dom.js): map the declared props, drop the nulls,
Object.fromEntries the surviving pairs. -/
def parseVueProps (propDefs : List (String × PropDef)) (props : List (String × String)) :
    List (String × JSVal) :=
  fromEntries (propDefs.filterMap (parseVuePropEntry props))

/-! loadDynamicImport (util.js): the Dynamic Resolution Engine. Initiators
and intermediate results live in DVal: a concrete payload, null/undefined,
a class extending Module (a function the engine must NOT invoke), a plain
function (invoking it either returns its body value or throws), a settled
promise (resolved or rejected; awaiting unwraps recursively, as await
does), or an object exposing a default member. Errors are Except String;
the settled outcome of the promise an async function returns is
DynOutcome.outcome. The model also counts factory invocations and records
whether the catch block logged (console.error ran). -/

inductive DVal (α : Type) where
  | undef : DVal α
  | vnull : DVal α
  | concrete (a : α) : DVal α
  | moduleClass (id : Nat) : DVal α
  | fnOk (body : DVal α) : DVal α
  | fnErr (msg : String) : DVal α
  | promiseOk (v : DVal α) : DVal α
  | promiseErr (msg : String) : DVal α
  | defaultWrap (d : DVal α) : DVal α

/-- await Promise.resolve(v): unwrap settled promise layers recursively;
a rejected layer throws. Non-promises resolve to themselves. -/
def awaitVal {α : Type} : DVal α → Except String (DVal α)
  | DVal.promiseOk v => awaitVal v
  | DVal.promiseErr e => Except.error e
  | v => Except.ok v

/-- The settled outcome of one loadDynamicImport call: how the returned
promise settles, how many times a factory (the initiator or the unwrapped
result) was invoked, and whether the catch block logged an error. -/
structure DynOutcome (α : Type) where
  outcome : Except String (DVal α)
  invocations : Nat
  logged : Bool

/-- The tail of the try block: result = await Promise.resolve(result) has
produced rD (promise-free), then the optional callback runs; a callback
throw is caught with result keeping rD; the final return adopts a promise
returned by the callback. -/
def afterAwaits {α : Type} (rD : DVal α) (inv : Nat)
    (cb : Option (DVal α → Except String (DVal α))) : DynOutcome α :=
  match cb with
  | none => ⟨Except.ok rD, inv, false⟩
  | some f =>
    match f rD with
    | Except.error _ => ⟨Except.ok rD, inv, true⟩
    | Except.ok rE => ⟨awaitVal rE, inv, false⟩

/-- The try block of loadDynamicImport, entered with the (possibly already
invoked) initiator. Each catch path returns the value last assigned to
result; returning it from the async function re-adopts it, so a rejected
promise held in result still rejects outward (after logging). -/
def runTryBlock {α : Type} (ini1 : DVal α) (inv : Nat)
    (cb : Option (DVal α → Except String (DVal α))) : DynOutcome α :=
  match awaitVal ini1 with
  | Except.error _ => ⟨Except.ok DVal.undef, inv, true⟩
  | Except.ok rA =>
    let rB := match rA with
      | DVal.defaultWrap d => d
      | v => v
    match rB with
    | DVal.fnErr m => ⟨Except.ok (DVal.fnErr m), inv + 1, true⟩
    | DVal.fnOk b =>
      match awaitVal b with
      | Except.error e => ⟨Except.error e, inv + 1, true⟩
      | Except.ok rD => afterAwaits rD (inv + 1) cb
    | v =>
      match awaitVal v with
      | Except.error e => ⟨Except.error e, inv, true⟩
      | Except.ok rD => afterAwaits rD inv cb

/-- loadDynamicImport (util.js). The statement initiator = initiator()
runs before the try block: a plain function initiator is invoked there,
and when that invocation throws the async function's promise rejects with
the error uncaught and unlogged. -/
def loadDynamicImport {α : Type} (initiator : DVal α)
    (cb : Option (DVal α → Except String (DVal α))) : DynOutcome α :=
  match initiator with
  | DVal.fnErr e => ⟨Except.error e, 1, false⟩
  | DVal.fnOk b => runTryBlock b 1 cb
  | v => runTryBlock v 0 cb

/-! App.initVueComponents / App.initVueComponent (App.js). A matched marker
element carries its data-vue-component name and the remaining dataset
entries (the rest-spread props, raw strings). The registry
this.dependencies.vueComponents maps names to initiators. The external
rendering collaborator (new Vue) is opaque: mounting yields a vueInstance
value recording the element and the final props mapping. -/

/-- A resolved component implementation: its declared props (none models an
undefined Component.props, some [] an empty props object, which is still
truthy), or an opaque non-component value, or a mounted instance. -/
structure VueComponent where
  propDecls : Option (List (String × PropDef))

inductive AppVal where
  | component (c : VueComponent) : AppVal
  | plainVal (id : Nat) : AppVal
  | vueInstance (elId : Nat) (vprops : List (String × JSVal)) : AppVal

/-- A marker element matched by the [data-vue-component] scan: element
identity, the vueComponent attribute value, and the remaining dataset. -/
structure MarkerEl where
  elId : Nat
  name : String
  attrs : List (String × String)

/-- The callback initVueComponent hands to loadDynamicImport: reads
Component.props (a throw on null/undefined Component), coerces the raw
props through parseVueProps when the declaration is truthy, and mounts.
Values that are not component objects have an undefined (falsy) props
member, so their raw props pass through unconverted. -/
def mountCb (elId : Nat) (rawProps : List (String × String)) (component : DVal AppVal) :
    Except String (DVal AppVal) :=
  match component with
  | DVal.undef => Except.error "TypeError: cannot read properties of undefined"
  | DVal.vnull => Except.error "TypeError: cannot read properties of null"
  | DVal.concrete (AppVal.component c) =>
    let vprops : List (String × JSVal) :=
      match c.propDecls with
      | some decls => parseVueProps decls rawProps
      | none => rawProps.map (fun kv => (kv.1, JSVal.vStr kv.2))
    Except.ok (DVal.concrete (AppVal.vueInstance elId vprops))
  | _ =>
    Except.ok (DVal.concrete (AppVal.vueInstance elId
      (rawProps.map (fun kv => (kv.1, JSVal.vStr kv.2)))))

/-- App.initVueComponent: registry lookup by name; a hit resolves the
initiator through loadDynamicImport with the mounting callback (the settled
outcome of that branch promise); a miss resolves to undefined. -/
def initVueComponent (deps : List (String × DVal AppVal)) (el : MarkerEl) :
    Except String (DVal AppVal) :=
  match List.lookup el.name deps with
  | some ini => (loadDynamicImport ini (some (mountCb el.elId el.attrs))).outcome
  | none => Except.ok DVal.undef

/-- Promise.all over the branch outcomes: resolves with all values once
every branch resolved, rejects when a branch rejected. -/
def settleAll : List (Except String (DVal AppVal)) → Except String (List (DVal AppVal))
  | [] => Except.ok []
  | Except.error e :: _ => Except.error e
  | Except.ok v :: rest => (settleAll rest).map (fun vs => v :: vs)

/-- App.initVueComponents: map every matched marker element to its branch,
join with Promise.all, then append the aggregate to the running
this.vueComponents registry. -/
def initVueComponents (deps : List (String × DVal AppVal)) (els : List MarkerEl)
    (prev : List (DVal AppVal)) : Except String (List (DVal AppVal)) :=
  (settleAll (els.map (initVueComponent deps))).map (fun news => prev ++ news)

/-! loadJSFile / loadCssFile (util.js). The module-level caches
loadedJSFiles (an object keyed by URL holding the load promise) and
loadedCSSFiles (an array of URLs) are the state; inserting a script or
link element into the document is recorded in scriptTags/cssLinks. The
document is modelled as always containing a script element (the running
bootstrap itself), so the insertion point exists. A script load settles
with true (load event) or false (error event) — resolve in both cases,
never reject — which the model reflects by keying the per-URL completion
signal: scriptSignal u is the cached promise for u, unitSignal the
already-resolved undefined promise returned on falsy/non-string URLs and
for stylesheet loads. -/

structure LoadState where
  loadedJSFiles : List String
  loadedCSSFiles : List String
  scriptTags : List String
  cssLinks : List String
  deriving DecidableEq, Repr

inductive LoadSignal where
  | scriptSignal (url : String) : LoadSignal
  | unitSignal : LoadSignal
  deriving DecidableEq, Repr

/-- loadJSFile (util.js): for a truthy string URL not yet cached, create
the load promise, insert the script tag and cache the promise under the
URL; return the cached promise. Otherwise resolve with undefined. The
async flag only sets the async attribute of the inserted tag. -/
def loadJSFile (st : LoadState) (url : JSVal) (_async : Bool) : LoadState × LoadSignal :=
  match url with
  | JSVal.vStr s =>
    if s ≠ "" then
      if s ∈ st.loadedJSFiles then (st, LoadSignal.scriptSignal s)
      else
        ({ st with
            loadedJSFiles := st.loadedJSFiles ++ [s],
            scriptTags := st.scriptTags ++ [s] },
          LoadSignal.scriptSignal s)
    else (st, LoadSignal.unitSignal)
  | _ => (st, LoadSignal.unitSignal)

/-- loadCssFile (util.js): for a truthy string URL not yet in the array,
insert the link element, push the URL and resolve with undefined;
otherwise resolve with undefined immediately. -/
def loadCssFile (st : LoadState) (url : JSVal) : LoadState × LoadSignal :=
  match url with
  | JSVal.vStr s =>
    if s ≠ "" ∧ s ∉ st.loadedCSSFiles then
      ({ st with
          loadedCSSFiles := st.loadedCSSFiles ++ [s],
          cssLinks := st.cssLinks ++ [s] },
        LoadSignal.unitSignal)
    else (st, LoadSignal.unitSignal)
  | _ => (st, LoadSignal.unitSignal)

/-- A branch value that is a live mounted instance (as opposed to the
undefined a registry miss resolves to). -/
def isMountedInstance : DVal AppVal → Bool
  | DVal.concrete (AppVal.vueInstance _ _) => true
  | _ => false

/-- Concrete registry for the C7 scenario: one registered component. -/
def c7deps : List (String × DVal AppVal) :=
  [("Good", DVal.concrete (AppVal.component ⟨none⟩))]

/-- Concrete marker elements for the C7 scenario: two independent markers,
one whose name is absent from the registry. -/
def c7els : List MarkerEl :=
  [⟨1, "Good", []⟩, ⟨2, "Missing", []⟩]

/-! Helper lemmas shared by the claim theorems. -/

theorem insertEntry_of_notMem {β : Type} :
    ∀ (l : List (String × β)) (k : String) (v : β), k ∉ l.map Prod.fst →
      insertEntry l k v = l ++ [(k, v)]
  | [], _, _, _ => rfl
  | (k0, v0) :: rest, k, v, h => by
    have hk : ¬ k0 = k := fun he => h (by simp [he])
    have hr : k ∉ rest.map Prod.fst := fun hm => h (by simp [hm])
    simp only [insertEntry, if_neg hk, insertEntry_of_notMem rest k v hr, List.cons_append]

theorem foldl_insertEntry_append {β : Type} :
    ∀ (l acc : List (String × β)), (acc.map Prod.fst ++ l.map Prod.fst).Nodup →
      l.foldl (fun a kv => insertEntry a kv.1 kv.2) acc = acc ++ l
  | [], acc, _ => by simp
  | (k, v) :: rest, acc, h => by
    have hk : k ∉ acc.map Prod.fst := by
      rcases List.nodup_append.mp h with ⟨_, _, hd⟩
      intro hm
      exact hd hm (by simp)
    have h2 : ((acc ++ [(k, v)]).map Prod.fst ++ rest.map Prod.fst).Nodup := by
      simpa [List.append_assoc] using h
    simp only [List.foldl_cons, insertEntry_of_notMem acc k v hk]
    rw [foldl_insertEntry_append rest (acc ++ [(k, v)]) h2]
    simp

/-- Object.fromEntries of a list with pairwise distinct keys is that list. -/
theorem fromEntries_eq_self {β : Type} (l : List (String × β))
    (h : (l.map Prod.fst).Nodup) : fromEntries l = l := by
  have := foldl_insertEntry_append l [] (by simpa using h)
  simpa [fromEntries] using this

theorem countP_add_countP_neg {γ : Type} (p : γ → Bool) :
    ∀ l : List γ, l.countP p + l.countP (fun a => !(p a)) = l.length := by
  intro l
  induction l with
  | nil => simp
  | cons a l ih =>
    by_cases h : p a <;> simp [List.countP_cons, h] <;> omega

/-- Stepping the candidate loop over a Number candidate never breaks (a
primitive number is not instanceof Number) and leaves the float parse as
the pending output. -/
theorem convertLoop_cons_tNumber (s : String) (out : JSVal) (l : List TypeTag) :
    convertLoop s out (TypeTag.tNumber :: l) =
      convertLoop s (JSVal.vNum (parseFloat s)) l := rfl

/-- Stepping over a String candidate never breaks (a primitive string is
not instanceof String) and leaves the raw string as the pending output. -/
theorem convertLoop_cons_tString (s : String) (out : JSVal) (l : List TypeTag) :
    convertLoop s out (TypeTag.tString :: l) =
      convertLoop s (JSVal.vStr s) l := rfl

/-- Any constructor outside the switch falls to the default case: same as
String. -/
theorem convertLoop_cons_tOther (s : String) (out : JSVal) (i : Nat) (l : List TypeTag) :
    convertLoop s out (TypeTag.tOther i :: l) =
      convertLoop s (JSVal.vStr s) l := rfl

/-- A Date candidate whose parse succeeds produces a Date object, which is
instanceof Date: the loop breaks there. -/
theorem convertLoop_cons_tDate_some (s : String) (ms : Int) (out : JSVal)
    (l : List TypeTag) (h : parseISODate s = some ms) :
    convertLoop s out (TypeTag.tDate :: l) = JSVal.vDate ms := by
  simp [convertLoop, convertStep, h, instanceOf]

/-- The loop skips any run of Number/String/unknown-constructor candidates
(their outputs are primitives, never instanceof anything) and breaks at a
Date candidate whose parse succeeds. -/
theorem convertLoop_skips_primitives (s : String) (ms : Int) :
    ∀ (pre : List TypeTag) (out : JSVal) (rest : List TypeTag),
      (∀ t ∈ pre, t = TypeTag.tNumber ∨ t = TypeTag.tString ∨ ∃ i, t = TypeTag.tOther i) →
      parseISODate s = some ms →
      convertLoop s out (pre ++ TypeTag.tDate :: rest) = JSVal.vDate ms
  | [], out, rest, _, hdate => by
    simpa using convertLoop_cons_tDate_some s ms out rest hdate
  | t :: pre, out, rest, hpre, hdate => by
    have ht := hpre t (by simp)
    have hrec := fun out2 => convertLoop_skips_primitives s ms pre out2 rest
      (fun u hu => hpre u (by simp [hu])) hdate
    rcases ht with h | h | ⟨i, h⟩ <;> subst h <;>
      simp only [List.cons_append, convertLoop_cons_tNumber, convertLoop_cons_tString,
        convertLoop_cons_tOther] <;> exact hrec _

/-- Claim C1 counterexample: convertString("42", [Number, String]) returns
the string "42", not the number 42 — parseFloat produces the primitive 42,
and a primitive is never `instanceof Number`, so the Number candidate does
not short-circuit and the String candidate's output is returned. -/
theorem C1_counterexample :
    convertString (JSVal.vStr "42") (some [TypeTag.tNumber, TypeTag.tString]) =
      JSVal.vStr "42" ∧
    convertString (JSVal.vStr "42") (some [TypeTag.tNumber, TypeTag.tString]) ≠
      JSVal.vNum (JSNumber.fin 42) :=
  ⟨rfl, fun h => JSVal.noConfusion
    (show JSVal.vStr "42" = JSVal.vNum (JSNumber.fin 42) from h)⟩

/-- Claim C1 (amended): convertString is deterministic and returns the value
of the first candidate whose produced value satisfies the
`value instanceof type` check, short-circuiting the remaining candidates;
candidates that produce primitives (Number, String, unknown constructors)
never satisfy the check, so convertString("42", [Number, String]) returns
the string "42" (the last candidate's output) and
convertString("42", [Date, String]) returns the string "42"; a Date
candidate whose parse succeeds short-circuits past any earlier
primitive-producing candidates. -/
theorem C1_first_instanceof_match_wins (s : String) (ms : Int)
    (pre rest : List TypeTag)
    (hpre : ∀ t ∈ pre, t = TypeTag.tNumber ∨ t = TypeTag.tString ∨ ∃ i, t = TypeTag.tOther i)
    (hdate : parseISODate s = some ms) :
    convertString (JSVal.vStr s) (some (pre ++ TypeTag.tDate :: rest)) = JSVal.vDate ms ∧
    convertString (JSVal.vStr "42") (some [TypeTag.tNumber, TypeTag.tString]) =
      JSVal.vStr "42" ∧
    convertString (JSVal.vStr "42") (some [TypeTag.tDate, TypeTag.tString]) =
      JSVal.vStr "42" := by
  refine ⟨?_, rfl, rfl⟩
  have h := convertLoop_skips_primitives s ms pre JSVal.vUndef rest hpre hdate
  cases pre with
  | nil => simpa [convertString] using h
  | cons t pre2 => simpa [convertString] using h

/-- Witness for C1: with candidates [Number, Date, String] and the string
"2021-11-26", the Number candidate is skipped and the Date candidate's
value 2021-11-26T00:00:00.000Z (epoch ms 1637884800000) is returned,
short-circuiting String. -/
theorem C1_witness :
    convertString (JSVal.vStr "2021-11-26")
        (some ([TypeTag.tNumber] ++ TypeTag.tDate :: [TypeTag.tString])) =
      JSVal.vDate 1637884800000 ∧
    convertString (JSVal.vStr "42") (some [TypeTag.tNumber, TypeTag.tString]) =
      JSVal.vStr "42" ∧
    convertString (JSVal.vStr "42") (some [TypeTag.tDate, TypeTag.tString]) =
      JSVal.vStr "42" :=
  C1_first_instanceof_match_wins "2021-11-26" 1637884800000
    [TypeTag.tNumber] [TypeTag.tString]
    (fun t ht => Or.inl (by simpa using ht)) rfl

/-- Claim C3 counterexample: "abc" parses to NaN, yet
convertString("abc", [Number, String]) reaches the later String candidate
and returns "abc", not NaN — NaN is a primitive and fails the
`instanceof Number` check, so the search is not terminated. -/
theorem C3_counterexample :
    parseFloat "abc" = JSNumber.nan ∧
    convertString (JSVal.vStr "abc") (some [TypeTag.tNumber, TypeTag.tString]) =
      JSVal.vStr "abc" ∧
    convertString (JSVal.vStr "abc") (some [TypeTag.tNumber, TypeTag.tString]) ≠
      JSVal.vNum JSNumber.nan :=
  ⟨rfl, rfl, fun h => JSVal.noConfusion
    (show JSVal.vStr "abc" = JSVal.vNum JSNumber.nan from h)⟩

/-- Claim C3 (amended): a Number candidate whose float parse yields NaN does
NOT terminate the candidate search (NaN is a primitive, and no primitive
satisfies `instanceof Number`): the later candidates are reached — with a
String candidate after Number the raw string is returned. NaN can still
end up as the returned value, but only as the leftover output of the
finished loop: when Number is the last candidate, and also when a later
Boolean/Array/Object candidate's JSON decode throws and so leaves the
previous output in place (e.g. convertString(s, [Number, Object]) is NaN
for an s that is neither a number nor JSON). -/
theorem C3_nan_does_not_terminate (s : String) (h : parseFloat s = JSNumber.nan)
    (hj : jsonParse s = none) :
    convertString (JSVal.vStr s) (some [TypeTag.tNumber, TypeTag.tString]) = JSVal.vStr s ∧
    convertString (JSVal.vStr s) (some [TypeTag.tNumber]) = JSVal.vNum JSNumber.nan ∧
    convertString (JSVal.vStr s) (some [TypeTag.tNumber, TypeTag.tObject]) =
      JSVal.vNum JSNumber.nan := by
  refine ⟨rfl, ?_, ?_⟩
  · show JSVal.vNum (parseFloat s) = JSVal.vNum JSNumber.nan
    rw [h]
  · show convertLoop s (JSVal.vNum (parseFloat s)) [TypeTag.tObject] =
      JSVal.vNum JSNumber.nan
    simp [convertLoop, convertStep, hj, instanceOf, h]

/-- Witness for C3 at s = "abc". -/
theorem C3_witness :
    parseFloat "abc" = JSNumber.nan ∧ jsonParse "abc" = none ∧
    (convertString (JSVal.vStr "abc") (some [TypeTag.tNumber, TypeTag.tString]) =
        JSVal.vStr "abc" ∧
      convertString (JSVal.vStr "abc") (some [TypeTag.tNumber]) =
        JSVal.vNum JSNumber.nan ∧
      convertString (JSVal.vStr "abc") (some [TypeTag.tNumber, TypeTag.tObject]) =
        JSVal.vNum JSNumber.nan) :=
  ⟨rfl, rfl, C3_nan_does_not_terminate "abc" rfl rfl⟩

/-- Claim C4: parseISODate parses the canonical "2021-11-26T00:00:00.000Z"
and the compact "20211126" to the same instant (separators optional, time
defaulting to 00:00:00.000, timezone to UTC), epoch ms 1637884800000; the
shape-invalid "2021-13-40" and the calendar-invalid "2021-02-30" both yield
the absent result. parseISODate is a total function into Option Int, so no
input produces an error. -/
theorem C4_iso_date_parsing :
    parseISODate "2021-11-26T00:00:00.000Z" = some 1637884800000 ∧
    parseISODate "20211126" = some 1637884800000 ∧
    parseISODate "2021-13-40" = none ∧
    parseISODate "2021-02-30" = none :=
  ⟨rfl, rfl, rfl, rfl⟩

/-- Claim C8: resolving an already-concrete value (not a function, not a
promise, no default member — a concrete payload, null, or undefined) with
no callback returns that value unchanged, with zero factory invocations
(and nothing logged). -/
theorem C8_idempotent_on_concrete :
    ∀ (α : Type) (a : α),
      loadDynamicImport (DVal.concrete a)
          (none : Option (DVal α → Except String (DVal α))) =
        ⟨Except.ok (DVal.concrete a), 0, false⟩ ∧
      loadDynamicImport (DVal.vnull : DVal α)
          (none : Option (DVal α → Except String (DVal α))) =
        ⟨Except.ok DVal.vnull, 0, false⟩ ∧
      loadDynamicImport (DVal.undef : DVal α)
          (none : Option (DVal α → Except String (DVal α))) =
        ⟨Except.ok DVal.undef, 0, false⟩ :=
  fun _ _ => ⟨rfl, rfl, rfl⟩

/-- Claim C2 evaluation at the failing input: an initiator that is a plain
(non-Module) factory throwing synchronously when invoked. The invocation
initiator = initiator() happens before the try block of loadDynamicImport,
so the error is neither caught nor logged (logged = false) and the async
function's promise rejects (outcome = error). Inside a scan, that rejected
branch makes the Promise.all aggregate reject, discarding the sibling
branch's result — even though the sibling branch alone resolves to a
mounted instance. This contradicts the claim that any error, including a
synchronously-throwing factory, is caught and logged and that a failing
branch cannot prevent siblings from settling. -/
theorem C2_sync_throw_propagates :
    loadDynamicImport (DVal.fnErr "boom" : DVal AppVal)
        (none : Option (DVal AppVal → Except String (DVal AppVal))) =
      ⟨Except.error "boom", 1, false⟩ ∧
    initVueComponents
        [("Bad", DVal.fnErr "boom"),
          ("Good", DVal.concrete (AppVal.component ⟨none⟩))]
        [⟨0, "Bad", []⟩, ⟨1, "Good", []⟩] [] =
      Except.error "boom" ∧
    initVueComponent
        [("Bad", DVal.fnErr "boom"),
          ("Good", DVal.concrete (AppVal.component ⟨none⟩))]
        ⟨1, "Good", []⟩ =
      Except.ok (DVal.concrete (AppVal.vueInstance 1 [])) :=
  ⟨rfl, rfl, rfl⟩

/-- Claim C9: the script and stylesheet load caches are append-only (each
call only ever appends to loadedJSFiles/loadedCSSFiles) and loading is
idempotent per URL: an immediate second call for the same URL leaves the
state — including the inserted script tags and css links — unchanged and
returns the same completion signal. The completion signals (LoadSignal,
settling as a Bool for scripts, undefined for stylesheets) have no
rejection case by construction. -/
theorem C9_load_caches (st : LoadState) (url : JSVal) (async : Bool) :
    loadJSFile (loadJSFile st url async).1 url async = loadJSFile st url async ∧
    (∃ t, (loadJSFile st url async).1.loadedJSFiles = st.loadedJSFiles ++ t) ∧
    (∃ t, (loadJSFile st url async).1.scriptTags = st.scriptTags ++ t) ∧
    (loadJSFile st url async).1.loadedCSSFiles = st.loadedCSSFiles ∧
    loadCssFile (loadCssFile st url).1 url = loadCssFile st url ∧
    (∃ t, (loadCssFile st url).1.loadedCSSFiles = st.loadedCSSFiles ++ t) ∧
    (∃ t, (loadCssFile st url).1.cssLinks = st.cssLinks ++ t) ∧
    (loadCssFile st url).1.loadedJSFiles = st.loadedJSFiles := by
  cases url with
  | vStr s =>
    by_cases hs : s = ""
    · subst hs
      simp [loadJSFile, loadCssFile]
    · by_cases hjs : s ∈ st.loadedJSFiles
      · by_cases hcss : s ∈ st.loadedCSSFiles
        · simp [loadJSFile, loadCssFile, hs, hjs, hcss]
        · simp [loadJSFile, loadCssFile, hs, hjs, hcss]
      · by_cases hcss : s ∈ st.loadedCSSFiles
        · simp [loadJSFile, loadCssFile, hs, hjs, hcss]
        · simp [loadJSFile, loadCssFile, hs, hjs, hcss]
  | vUndef => simp [loadJSFile, loadCssFile]
  | vNull => simp [loadJSFile, loadCssFile]
  | vBool b => simp [loadJSFile, loadCssFile]
  | vNum n => simp [loadJSFile, loadCssFile]
  | vDate ms => simp [loadJSFile, loadCssFile]
  | vArr elems => simp [loadJSFile, loadCssFile]
  | vObj fields => simp [loadJSFile, loadCssFile]

/-- Claim C10: convertString returns null, without attempting any
conversion, for any non-string input and for any requested-types argument
that is not a non-empty array (undefined or an empty array); consequently
in parseVueProps a declared parameter whose type declaration does not
normalize to a requested-type array maps its (truthy) raw value to null
rather than passing the raw string through. -/
theorem C10_guard_returns_null (v : JSVal) (hv : ∀ s, v ≠ JSVal.vStr s) :
    (∀ rt, convertString v rt = JSVal.vNull) ∧
    (∀ s, convertString (JSVal.vStr s) none = JSVal.vNull) ∧
    (∀ s, convertString (JSVal.vStr s) (some []) = JSVal.vNull) ∧
    (∀ k raw, raw ≠ "" →
      parseVueProps [(k, PropDef.other)] [(k, raw)] = [(k, JSVal.vNull)]) := by
  refine ⟨?_, fun s => rfl, fun s => rfl, ?_⟩
  · intro rt
    cases v with
    | vStr s => exact absurd rfl (hv s)
    | vUndef => cases rt with
      | none => rfl
      | some l => cases l <;> rfl
    | vNull => cases rt with
      | none => rfl
      | some l => cases l <;> rfl
    | vBool b => cases rt with
      | none => rfl
      | some l => cases l <;> rfl
    | vNum n => cases rt with
      | none => rfl
      | some l => cases l <;> rfl
    | vDate ms => cases rt with
      | none => rfl
      | some l => cases l <;> rfl
    | vArr elems => cases rt with
      | none => rfl
      | some l => cases l <;> rfl
    | vObj fields => cases rt with
      | none => rfl
      | some l => cases l <;> rfl
  · intro k raw hraw
    simp [parseVueProps, parseVuePropEntry, List.lookup, hraw, normPropTypes,
      convertString, fromEntries, insertEntry]

/-- Witness for C10: a boolean input and the concrete malformed declaration
scenario. -/
theorem C10_witness :
    (∀ rt, convertString (JSVal.vBool true) rt = JSVal.vNull) ∧
    parseVueProps [("x", PropDef.other)] [("x", "1")] = [("x", JSVal.vNull)] :=
  ⟨(C10_guard_returns_null (JSVal.vBool true)
      (fun s h => JSVal.noConfusion h)).1,
    (C10_guard_returns_null (JSVal.vBool true)
      (fun s h => JSVal.noConfusion h)).2.2.2 "x" "1" (by decide)⟩

/-- A prefix free of regex metacharacters compiles to a pattern of
literals. -/
theorem compile_litpattern :
    ∀ cs : List Char, (∀ c ∈ cs, c ∉ regexMeta) →
      compilePattern cs = some (cs.map RegexTok.lit)
  | [], _ => rfl
  | c :: cs, h => by
    have hc : c ∉ regexMeta := h c (by simp)
    have hdot : ¬ c = '.' := fun he => hc (by rw [he]; simp [regexMeta])
    simp only [compilePattern, if_neg hdot, if_neg hc,
      compile_litpattern cs (fun x hx => h x (by simp [hx])), List.map_cons]
    rfl

/-- An all-literal ^pattern matches exactly the keys starting with those
characters, and strips exactly them. -/
theorem matchHead_lits :
    ∀ cs ks : List Char,
      matchHead (cs.map RegexTok.lit) ks =
        if cs.isPrefixOf ks then some (ks.drop cs.length) else none
  | [], ks => by simp [matchHead, List.isPrefixOf]
  | c :: cs, [] => by simp [matchHead, List.isPrefixOf]
  | c :: cs, k :: ks => by
    by_cases hk : k = c
    · simp [matchHead, List.isPrefixOf, hk, matchHead_lits cs ks]
    · have : ¬ (c == k) = true := by
        simpa [beq_iff_eq] using fun he => hk he.symm
      simp [matchHead, List.isPrefixOf, hk, this]

/-- Under an all-literal pattern, the per-key regex step of getDataset is
the spec-worded starts-with/strip step. -/
theorem regexKeyEntry_lits (p : String) (kv : String × String) :
    regexKeyEntry (p.data.map RegexTok.lit) kv =
      (if startsWithLit p kv.1 then
        if lowerFirst (String.mk (kv.1.data.drop p.data.length)) ≠ "" then
          some (lowerFirst (String.mk (kv.1.data.drop p.data.length)), datasetVal kv.2)
        else none
      else none) := by
  unfold regexKeyEntry startsWithLit
  rw [matchHead_lits]
  by_cases hb : p.data.isPrefixOf kv.1.data
  · simp [hb]
  · simp [hb]

/-- Under an all-literal pattern, getDataset's filtered entries are exactly
those of the spec-worded extractor. -/
theorem filterMap_regexKey_eq_spec (p : String) :
    ∀ ds : List (String × String),
      ds.filterMap (regexKeyEntry (p.data.map RegexTok.lit)) = getDatasetSpec ds p
  | [] => rfl
  | kv :: rest => by
    simp only [getDatasetSpec, List.filterMap_cons, regexKeyEntry_lits p kv,
      filterMap_regexKey_eq_spec p rest]

/-- Claim C5 counterexample: the prefix is used as a regex pattern, not a
literal. With prefix "." (the regex wildcard) and dataset {abc: "x"}, the
key "abc" does not start with "." — the claim demands the empty output —
yet new RegExp("^.") matches it and replace strips its first character:
the output is {bc: "x"}. (A prefix forming an invalid pattern, such as
"(", is outside the modelled subset: new RegExp throws a SyntaxError.) -/
theorem C5_counterexample :
    getDataset [("abc", "x")] (some ".") = some [("bc", JSVal.vStr "x")] ∧
    startsWithLit "." "abc" = false ∧
    getDatasetSpec [("abc", "x")] "." = [] ∧
    getDataset [("abc", "x")] (some ".") ≠
      some (getDatasetSpec [("abc", "x")] ".") ∧
    getDataset [("abc", "x")] (some "(") = none :=
  ⟨rfl, rfl, rfl,
    fun h => List.noConfusion (Option.some.inj h), rfl⟩

/-- Claim C5 (amended): for every source mapping and every truthy prefix
free of regex metacharacters, getDataset outputs exactly the entries whose
key starts with the prefix, with the prefix stripped, the remaining first
character lower-cased, and keys that become empty dropped; each kept value
is the JSON decode of the raw string, or the raw string verbatim when
decoding fails, and a decode failure is never propagated as an error
(stated as equality with the spec-worded extractor getDatasetSpec, for
outputs with pairwise-distinct keys — object assignment otherwise
overwrites). In particular {vueTitle: "Hello", other: "x"} with prefix
"vue" yields exactly {title: "Hello"}. For prefixes containing
metacharacters the prefix acts as a regex pattern instead (see the
counterexample), so the original unrestricted claim fails. -/
theorem C5_dataset_extraction (ds : List (String × String)) (p : String)
    (hp : p ≠ "") (hlit : ∀ c ∈ p.data, c ∉ regexMeta)
    (hnd : ((getDatasetSpec ds p).map Prod.fst).Nodup) :
    getDataset ds (some p) = some (getDatasetSpec ds p) ∧
    getDataset [("vueTitle", "Hello"), ("other", "x")] (some "vue") =
      some [("title", JSVal.vStr "Hello")] := by
  constructor
  · have h1 : getDataset ds (some p) =
        some (getDatasetWithRegex (p.data.map RegexTok.lit) ds) := by
      simp [getDataset, hp, compile_litpattern p.data hlit]
    rw [h1, getDatasetWithRegex, filterMap_regexKey_eq_spec p ds,
      fromEntries_eq_self _ hnd]
  · rfl

/-- Witness for C5 at the spec's example dataset and prefix "vue". -/
theorem C5_witness :
    getDataset [("vueTitle", "Hello"), ("other", "x")] (some "vue") =
      some (getDatasetSpec [("vueTitle", "Hello"), ("other", "x")] "vue") ∧
    getDataset [("vueTitle", "Hello"), ("other", "x")] (some "vue") =
      some [("title", JSVal.vStr "Hello")] :=
  C5_dataset_extraction [("vueTitle", "Hello"), ("other", "x")] "vue"
    (by decide) (by decide) (by decide)

/-- A produced parseVueProps pair keeps the declared key. -/
theorem parseVuePropEntry_key (props : List (String × String))
    (kd : String × PropDef) (kv : String × JSVal)
    (h : parseVuePropEntry props kd = some kv) : kv.1 = kd.1 := by
  unfold parseVuePropEntry at h
  rcases hl : List.lookup kd.1 props with _ | raw <;> rw [hl] at h
  · exact absurd h (by simp)
  · replace h : (if raw = "" then none
        else some (kd.1, convertString (JSVal.vStr raw) (normPropTypes kd.2))) =
          some kv := h
    by_cases hr : raw = ""
    · rw [if_pos hr] at h
      exact absurd h (by simp)
    · rw [if_neg hr] at h
      cases h
      rfl

/-- The keys of the surviving parseVueProps pairs form a sublist of the
declared keys. -/
theorem parseVueProps_keys_sublist (props : List (String × String)) :
    ∀ pds : List (String × PropDef),
      ((pds.filterMap (parseVuePropEntry props)).map Prod.fst).Sublist
        (pds.map Prod.fst)
  | [] => List.Sublist.slnil
  | kd :: pds => by
    rcases hf : parseVuePropEntry props kd with _ | kv
    · simpa [List.filterMap_cons, hf] using
        (parseVueProps_keys_sublist props pds).cons kd.1
    · have hk := parseVuePropEntry_key props kd kv hf
      simpa [List.filterMap_cons, hf, hk] using
        (parseVueProps_keys_sublist props pds).cons₂ kd.1

/-- Claim C6 counterexample: prop "when" declared as Date with the raw
value "hello" — no declared candidate type can produce a matching value
(convertString returns null) — yet the final arguments mapping is
{when: null}, not the empty mapping: the argument is not omitted. -/
theorem C6_counterexample :
    convertString (JSVal.vStr "hello") (some [TypeTag.tDate]) = JSVal.vNull ∧
    parseVueProps [("when", PropDef.single TypeTag.tDate)] [("when", "hello")] =
      [("when", JSVal.vNull)] ∧
    parseVueProps [("when", PropDef.single TypeTag.tDate)] [("when", "hello")] ≠
      ([] : List (String × JSVal)) :=
  ⟨rfl, rfl, fun h => List.noConfusion
    (show (("when", JSVal.vNull) :: []) = ([] : List (String × JSVal)) from h)⟩

/-- Claim C6 (amended): a declared parameter with a truthy raw attribute is
always present in the final arguments mapping, bound to the result of the
coercion — even when no declared candidate type matched and that result is
null (or NaN, or the raw string from a default case): a coercion failure is
never a hard failure of the mount (parseVueProps is total), but the
affected argument is kept with the failed-conversion value, not omitted;
only a missing or falsy raw attribute is omitted. -/
theorem C6_coercion_failure_kept (pds : List (String × PropDef))
    (ps : List (String × String)) (k : String) (d : PropDef) (raw : String)
    (hnd : (pds.map Prod.fst).Nodup) (hmem : (k, d) ∈ pds)
    (hraw : List.lookup k ps = some raw) (hne : raw ≠ "") :
    (k, convertString (JSVal.vStr raw) (normPropTypes d)) ∈ parseVueProps pds ps := by
  have hf : parseVuePropEntry ps (k, d) =
      some (k, convertString (JSVal.vStr raw) (normPropTypes d)) := by
    simp [parseVuePropEntry, hraw, hne]
  have hflt : (k, convertString (JSVal.vStr raw) (normPropTypes d)) ∈
      pds.filterMap (parseVuePropEntry ps) :=
    List.mem_filterMap.mpr ⟨(k, d), hmem, hf⟩
  have hsub := parseVueProps_keys_sublist ps pds
  have hnd2 : ((pds.filterMap (parseVuePropEntry ps)).map Prod.fst).Nodup :=
    hnd.sublist hsub
  unfold parseVueProps
  rw [fromEntries_eq_self _ hnd2]
  exact hflt

/-- Witness for C6: the Date-declared prop with raw value "hello" is kept
in the mapping, bound to null. -/
theorem C6_witness :
    ("when", convertString (JSVal.vStr "hello")
        (normPropTypes (PropDef.single TypeTag.tDate))) ∈
      parseVueProps [("when", PropDef.single TypeTag.tDate)] [("when", "hello")] :=
  C6_coercion_failure_kept [("when", PropDef.single TypeTag.tDate)]
    [("when", "hello")] "when" (PropDef.single TypeTag.tDate) "hello"
    (by decide) (by simp) rfl (by decide)

/-- Fan-out/fan-in of one scan: when every registry hit mounts an instance,
every branch settles successfully (registry misses settle to undefined),
the aggregate has one value per marker element, and the number of mounted
instances equals the number of registry hits. -/
theorem scan_branches_settle (deps : List (String × DVal AppVal)) :
    ∀ els : List MarkerEl,
      (∀ el ∈ els, (List.lookup el.name deps).isSome = true →
        ∃ eid ps, initVueComponent deps el =
          Except.ok (DVal.concrete (AppVal.vueInstance eid ps))) →
      ∃ news, settleAll (els.map (initVueComponent deps)) = Except.ok news ∧
        news.length = els.length ∧
        news.countP isMountedInstance =
          els.countP (fun el => (List.lookup el.name deps).isSome)
  | [], _ => ⟨[], rfl, rfl, rfl⟩
  | el :: els, h2 => by
    obtain ⟨news, hs, hlen, hcnt⟩ := scan_branches_settle deps els
      (fun e he hs => h2 e (List.mem_cons_of_mem el he) hs)
    rcases hl : List.lookup el.name deps with _ | ini
    · have hbranch : initVueComponent deps el = Except.ok DVal.undef := by
        simp [initVueComponent, hl]
      refine ⟨DVal.undef :: news, ?_, by simp [hlen], ?_⟩
      · simp [settleAll, hbranch, hs, Except.map]
      · simp [List.countP_cons, hcnt, hl, isMountedInstance]
    · obtain ⟨eid, ps, hbranch⟩ := h2 el (List.mem_cons_self el els) (by simp [hl])
      refine ⟨DVal.concrete (AppVal.vueInstance eid ps) :: news, ?_, by simp [hlen], ?_⟩
      · simp [settleAll, hbranch, hs, Except.map]
      · simp [List.countP_cons, hcnt, hl, isMountedInstance]

/-- Claim C7: a scan over zero matching marker elements settles immediately
with an empty aggregate (the running registry is unchanged); a scan over N
independent marker elements of which exactly one carries a name absent from
the registry — every registered branch mounting an instance — settles
successfully with N values of which exactly N-1 are mounted instances, the
missing-name branch having resolved to undefined without error. -/
theorem C7_scan_aggregate (deps : List (String × DVal AppVal)) (els : List MarkerEl)
    (h1 : els.countP (fun el => (List.lookup el.name deps).isNone) = 1)
    (h2 : ∀ el ∈ els, (List.lookup el.name deps).isSome = true →
      ∃ eid ps, initVueComponent deps el =
        Except.ok (DVal.concrete (AppVal.vueInstance eid ps))) :
    (∀ (deps2 : List (String × DVal AppVal)) (prev : List (DVal AppVal)),
      initVueComponents deps2 [] prev = Except.ok prev) ∧
    ∃ news, initVueComponents deps els [] = Except.ok news ∧
      news.length = els.length ∧
      news.countP isMountedInstance = els.length - 1 := by
  refine ⟨fun deps2 prev => by simp [initVueComponents, settleAll, Except.map], ?_⟩
  obtain ⟨news, hs, hlen, hcnt⟩ := scan_branches_settle deps els h2
  refine ⟨news, ?_, hlen, ?_⟩
  · simp [initVueComponents, hs, Except.map]
  · have hsplit := countP_add_countP_neg
      (fun el => (List.lookup el.name deps).isSome) els
    have hneg : els.countP
        (fun el => !((List.lookup el.name deps).isSome)) =
        els.countP (fun el => (List.lookup el.name deps).isNone) := by
      apply List.countP_congr
      intro el _
      rcases List.lookup el.name deps with _ | v <;> simp
    rw [hneg, h1] at hsplit
    omega

/-- Witness for C7: registry with one component, two marker elements, one
with the unregistered name "Missing": the scan settles with two values,
exactly one of which is a mounted instance. -/
theorem C7_witness :
    (∀ (deps2 : List (String × DVal AppVal)) (prev : List (DVal AppVal)),
      initVueComponents deps2 [] prev = Except.ok prev) ∧
    ∃ news, initVueComponents c7deps c7els [] = Except.ok news ∧
      news.length = c7els.length ∧
      news.countP isMountedInstance = c7els.length - 1 :=
  C7_scan_aggregate c7deps c7els (by decide)
    (fun el hel hs => by
      rcases List.mem_cons.mp hel with h | h
      · exact ⟨1, [], by rw [h]; rfl⟩
      · rcases List.mem_cons.mp h with h2 | h2
        · rw [h2] at hs
          exact absurd hs (by decide)
        · exact absurd h2 (List.not_mem_nil el))

end Nayan
